import Mathlib

/-!
# Verification of the request-governance layer of `rez_agent`

Shallow embedding of the three governance components of the repository:

* the daily spend ledger (`cmd/agent/cost_limiter.py`, class `CostLimiter`);
* the token-bucket rate limiter and the exponential-backoff wrapper
  (`cmd/agent/bedrock_config.py`, class `RateLimiter` and
  `with_exponential_backoff`);
* the response-queue poller (`cmd/agent/response_handler.py`,
  `ResponseHandler.poll_responses`).

Modelling conventions:

* Python `Decimal` values produced by the ledger are exact decimal numbers
  (division by `1000` and multiplication by the per-1k rates stay well inside
  the 28-digit default context for any realistic token count), so they are
  embedded as `ℚ`.
* The DynamoDB store is made explicit: the outcome of the single `get_item`
  performed by a ledger operation is passed in as a `FetchResult`
  (item found / no item / `ClientError`), and the record an operation would
  `put_item` is returned.  The `id` key (a per-stage constant) and the
  `last_updated` timestamp string carry no logic and are omitted from the
  record.
* Wall-clock instants (`time.time()`) and Python floats are embedded as `ℚ`;
  the properties proved about the rate limiter (`min` capping, guarded
  subtraction) are monotone-rounding-safe, so exact rationals are a faithful
  abstraction of IEEE doubles here.
* Loops whose iteration count is driven by real time (the `acquire` retry
  loop, the poller's `while` loop) take the schedule of observed clock
  samples as an explicit argument.
-/

/-! ## Spend ledger — `cmd/agent/cost_limiter.py` -/

/-- Pricing constant `CLAUDE_3_5_SONNET_PRICING["input_per_1k_tokens"] = Decimal("0.003")`. -/
def input_per_1k_tokens : ℚ := 3 / 1000

/-- Pricing constant `CLAUDE_3_5_SONNET_PRICING["output_per_1k_tokens"] = Decimal("0.015")`. -/
def output_per_1k_tokens : ℚ := 15 / 1000

/-- Daily cap constant `DAILY_SPENDING_CAP = Decimal("5.00")`. -/
def DAILY_SPENDING_CAP : ℚ := 5

/-- The per-day spend record stored in DynamoDB (`id` key and the
`last_updated` timestamp omitted: they carry no logic). `total_cost` is
stored as a decimal string in the table; the string round-trips exactly
through `Decimal`, so it is embedded as the number itself. -/
structure CostRecord where
  date : String
  total_cost : ℚ
  request_count : ℕ
  input_tokens : ℕ
  output_tokens : ℕ
  deriving DecidableEq

/-- Embedding of `CostLimiter.calculate_cost` (cost_limiter.py:100-104). -/
def calculate_cost (input_tokens output_tokens : ℕ) : ℚ :=
  (input_tokens : ℚ) / 1000 * input_per_1k_tokens
    + (output_tokens : ℚ) / 1000 * output_per_1k_tokens

/-- Embedding of `CostLimiter._initialize_cost_record` (cost_limiter.py:73-90): the fresh
record written (best effort) and returned for a new day. -/
def _initialize_cost_record (today : String) : CostRecord :=
  { date := today, total_cost := 0, request_count := 0,
    input_tokens := 0, output_tokens := 0 }

/-- Outcome of the `get_item` read performed by `_get_cost_record`. -/
inductive FetchResult where
  | item (r : CostRecord)
  | noItem
  | clientError
  deriving DecidableEq

/-- Embedding of `CostLimiter._get_cost_record` (cost_limiter.py:39-71): returns the
stored record if it is dated today, resets it if it is stale, initializes it
if absent, and on a `ClientError` conservatively returns a synthetic record
whose `total_cost` is the full daily cap. -/
def _get_cost_record (today : String) : FetchResult → CostRecord
  | .item r => if r.date = today then r else _initialize_cost_record today
  | .noItem => _initialize_cost_record today
  | .clientError =>
      { date := today, total_cost := DAILY_SPENDING_CAP, request_count := 0,
        input_tokens := 0, output_tokens := 0 }

/-- Embedding of `CostLimiter.check_and_update_cost` (cost_limiter.py:106-158).  Returns
the `allowed` flag together with the record as it stands after the call
(unchanged on refusal — the refusal branch returns before any mutation;
optimistically bumped and saved on success).  The human-readable message and
the float `cost_info` dict are reporting only and are not modelled. -/
def check_and_update_cost (today : String) (fetch : FetchResult)
    (estimated_input_tokens estimated_output_tokens : ℕ) : Bool × CostRecord :=
  let record := _get_cost_record today fetch
  let current_cost := record.total_cost
  let estimated_cost := calculate_cost estimated_input_tokens estimated_output_tokens
  let projected_cost := current_cost + estimated_cost
  if DAILY_SPENDING_CAP < projected_cost then
    (false, record)
  else
    (true, { record with
              total_cost := projected_cost,
              request_count := record.request_count + 1,
              input_tokens := record.input_tokens + estimated_input_tokens,
              output_tokens := record.output_tokens + estimated_output_tokens })

/-- Embedding of `CostLimiter.update_actual_cost` (cost_limiter.py:160-184): adds the
actual token counts to the cumulative counters, then recomputes `total_cost`
from scratch from the cumulative totals. -/
def update_actual_cost (today : String) (fetch : FetchResult)
    (input_tokens output_tokens : ℕ) : CostRecord :=
  let record := _get_cost_record today fetch
  let total_input_tokens := record.input_tokens + input_tokens
  let total_output_tokens := record.output_tokens + output_tokens
  { record with
      input_tokens := total_input_tokens,
      output_tokens := total_output_tokens,
      total_cost := calculate_cost total_input_tokens total_output_tokens }

/-- A same-day sequence of `update_actual_cost` calls: each call re-reads the
record the previous call persisted. -/
def run_updates (today : String) (r : CostRecord) : List (ℕ × ℕ) → CostRecord
  | [] => r
  | (a, b) :: rest => run_updates today (update_actual_cost today (.item r) a b) rest

/-! ## Token-bucket rate limiter — `cmd/agent/bedrock_config.py` -/

/-- The mutable fields of `RateLimiter` (bedrock_config.py:29-40).  Floats
and wall-clock instants are embedded as `ℚ`. -/
structure RateLimiter where
  requests_per_minute : ℚ
  tokens : ℚ
  max_tokens : ℚ
  last_update : ℚ
  deriving DecidableEq

/-- Embedding of `RateLimiter.__init__` at clock instant `now`. -/
def RateLimiter.init (requests_per_minute : ℚ) (now : ℚ) : RateLimiter :=
  { requests_per_minute := requests_per_minute,
    tokens := requests_per_minute,
    max_tokens := requests_per_minute,
    last_update := now }

/-- Embedding of `RateLimiter._refill_tokens` (bedrock_config.py:42-50) observed at clock
instant `now`. -/
def _refill_tokens (s : RateLimiter) (now : ℚ) : RateLimiter :=
  { s with
      tokens := min s.max_tokens
        (s.tokens + (now - s.last_update) * (s.requests_per_minute / 60)),
      last_update := now }

/-- Embedding of `RateLimiter.acquire` (bedrock_config.py:52-79).  Each loop iteration
samples the clock twice: `t` inside the lock (used by `_refill_tokens`) and
`c` at the timeout check; the schedule of these samples is the explicit
argument.  Returns `some true` on success, `some false` on timeout, and
`none` together with the state reached if the schedule ends before the loop
does (an under-specified run). -/
def acquire (req : ℤ) (deadline : ℚ) (s : RateLimiter) :
    List (ℚ × ℚ) → Option Bool × RateLimiter
  | [] => (none, s)
  | (t, c) :: rest =>
      let s1 := _refill_tokens s t
      if (req : ℚ) ≤ s1.tokens then
        (some true, { s1 with tokens := s1.tokens - (req : ℚ) })
      else if deadline ≤ c then
        (some false, s1)
      else
        acquire req deadline s1 rest

/-- One `acquire` call of a trace: requested token count, the deadline
(`time.time() + timeout`), and the clock-sample schedule of its loop. -/
structure AcquireCall where
  req : ℤ
  deadline : ℚ
  sched : List (ℚ × ℚ)

/-- A sequence of `acquire` calls against the same bucket. -/
def runAcquires (s : RateLimiter) : List AcquireCall → RateLimiter
  | [] => s
  | cl :: cls => runAcquires (acquire cl.req cl.deadline s cl.sched).2 cls

/-- The clock samples of one loop are non-decreasing and start no earlier
than the bucket's `last_update` (wall time does not run backwards). -/
def monoSched (t0 : ℚ) : List (ℚ × ℚ) → Bool
  | [] => true
  | (t, _) :: rest => (decide (t0 ≤ t)) && monoSched t rest

/-- A trace of `acquire` calls is valid when every call requests a
non-negative token count and observes a monotone clock. -/
def validCalls (s : RateLimiter) : List AcquireCall → Bool
  | [] => true
  | cl :: cls =>
      (decide (0 ≤ cl.req)) && monoSched s.last_update cl.sched
        && validCalls (acquire cl.req cl.deadline s cl.sched).2 cls

/-! ## Exponential backoff — `with_exponential_backoff`
(bedrock_config.py:145-215)

The decorator is used with its default `exceptions=(ClientError,)`, so every
caught exception is a `ClientError` carrying an error code; an error is
embedded as its code string.  The callable is embedded as the outcome of its
`i`-th invocation; sleeping changes no modelled state. -/

/-- The fixed throttling allow-list (bedrock_config.py:179-183). -/
def throttling_codes : List String :=
  ["ThrottlingException", "TooManyRequestsException",
   "ProvisionedThroughputExceededException"]

/-- The classifier: `error_code in [...]`. -/
def is_throttling (code : String) : Bool := throttling_codes.contains code

/-- The retry loop of `with_exponential_backoff` from attempt number
`attempt` (bedrock_config.py:168-209).  Returns the final outcome together
with the total number of invocations of the wrapped callable. -/
def backoffFrom (maxRetries : ℕ) (f : ℕ → Except String A) (attempt : ℕ) :
    Except String A × ℕ :=
  match f attempt with
  | .ok a => (.ok a, attempt + 1)
  | .error e =>
      if is_throttling e = false then (.error e, attempt + 1)
      else if maxRetries ≤ attempt then (.error e, attempt + 1)
      else backoffFrom maxRetries f (attempt + 1)
termination_by maxRetries - attempt
decreasing_by omega

/-- A call to the wrapped function: the loop starting at attempt 0. -/
def with_exponential_backoff (maxRetries : ℕ) (f : ℕ → Except String A) :
    Except String A × ℕ :=
  backoffFrom maxRetries f 0

/-! ## Response poller — `cmd/agent/response_handler.py` -/

/-- An SQS message as consumed by `poll_responses`: its body string and its
receipt handle (embedded as a number; used only for deletion). -/
structure SqsMessage where
  body : String
  receiptHandle : ℕ
  deriving DecidableEq

/-- Outcome of one `receive_message` call: a (possibly empty) batch, or a
`ClientError` raised by the SQS client. -/
inductive RecvResult where
  | msgs (ms : List SqsMessage)
  | recvError
  deriving DecidableEq

/-- The per-message loop (response_handler.py:64-89), parameterised by the
parse step (`json.loads` plus envelope extraction), which either yields a
parsed body or fails.  Returns the parsed responses (each carrying its
`receipt_handle`) in arrival order, together with the receipt handles whose
deletion was requested. -/
def processMessages (parse : String → Option P) :
    List SqsMessage → List (P × ℕ) × List ℕ
  | [] => ([], [])
  | m :: rest =>
      match parse m.body with
      | some p =>
          let tail := processMessages parse rest
          ((p, m.receiptHandle) :: tail.1, m.receiptHandle :: tail.2)
      | none => processMessages parse rest

/-- Result of a `poll_responses` run: the returned responses, the deleted
receipt handles, and (instrumentation) the batches actually received. -/
structure PollRun (P : Type) where
  responses : List (P × ℕ)
  deleted : List ℕ
  received : List (List SqsMessage)
  deriving DecidableEq

/-- The polling loop of `poll_responses` (response_handler.py:43-98).  Each
round of the schedule carries the sampled `while` condition
(`elapsed < timeout_seconds`) and the outcome of its `receive_message` call.
The loop exits when the time check fails, when a receive raises
`ClientError` (caught by the outer handler), when a round returns no
messages, or when the response list is non-empty after a round; an exhausted
schedule models the time check eventually failing. -/
def pollGo (parse : String → Option P) (resp : List (P × ℕ)) (del : List ℕ)
    (recv : List (List SqsMessage)) : List (Bool × RecvResult) → PollRun P
  | [] => ⟨resp, del, recv⟩
  | (timeOk, rr) :: rest =>
      if timeOk = false then ⟨resp, del, recv⟩
      else
        match rr with
        | .recvError => ⟨resp, del, recv⟩
        | .msgs ms =>
            if ms.isEmpty then ⟨resp, del, recv ++ [ms]⟩
            else
              let pr := processMessages parse ms
              let resp2 := resp ++ pr.1
              let del2 := del ++ pr.2
              if resp2.isEmpty then pollGo parse resp2 del2 (recv ++ [ms]) rest
              else ⟨resp2, del2, recv ++ [ms]⟩

/-- Embedding of `ResponseHandler.poll_responses` over a schedule of rounds. -/
def poll_responses (parse : String → Option P)
    (rounds : List (Bool × RecvResult)) : PollRun P :=
  pollGo parse [] [] [] rounds

/-- The batches `poll_responses` receives, written out from the amended
drain contract: keep polling exactly while the time check passes, the
receive succeeds, the batch is non-empty, and the batch contributed no
parsed response; stop (after receiving that last batch) otherwise. -/
def drainReceivedSpec (parse : String → Option P) :
    List (Bool × RecvResult) → List (List SqsMessage)
  | [] => []
  | (timeOk, rr) :: rest =>
      if timeOk = false then []
      else
        match rr with
        | .recvError => []
        | .msgs ms =>
            if ms.isEmpty then [ms]
            else if (processMessages parse ms).1.isEmpty then
              ms :: drainReceivedSpec parse rest
            else [ms]

/-- A concrete parse function for witness runs: accepts the body `"ok"`. -/
def parseDemo : String → Option ℕ :=
  fun s => if s = "ok" then some 1 else none

/-- Invariant of the token bucket: non-negative configured rate and a
balance within `[0, max_tokens]`. -/
def RateLimiter.Inv (s : RateLimiter) : Prop :=
  0 ≤ s.requests_per_minute ∧ 0 ≤ s.tokens ∧ s.tokens ≤ s.max_tokens

/-! ## Helper lemmas -/

lemma get_cost_record_same_day (today : String) (r : CostRecord)
    (h : r.date = today) : _get_cost_record today (.item r) = r := by
  simp [_get_cost_record, h]

lemma calculate_cost_nonneg (i o : ℕ) : 0 ≤ calculate_cost i o := by
  unfold calculate_cost input_per_1k_tokens output_per_1k_tokens
  positivity

lemma calculate_cost_pos (i o : ℕ) (h : 0 < i ∨ 0 < o) :
    0 < calculate_cost i o := by
  unfold calculate_cost input_per_1k_tokens output_per_1k_tokens
  rcases h with h | h
  · have hi : (0 : ℚ) < i := by exact_mod_cast h
    have h1 : (0 : ℚ) < (i : ℚ) / 1000 * (3 / 1000) := by positivity
    have h2 : (0 : ℚ) ≤ (o : ℚ) / 1000 * (15 / 1000) := by positivity
    linarith
  · have ho : (0 : ℚ) < o := by exact_mod_cast h
    have h1 : (0 : ℚ) ≤ (i : ℚ) / 1000 * (3 / 1000) := by positivity
    have h2 : (0 : ℚ) < (o : ℚ) / 1000 * (15 / 1000) := by positivity
    linarith

lemma update_actual_cost_same_day (today : String) (r : CostRecord) (a b : ℕ)
    (h : r.date = today) :
    update_actual_cost today (.item r) a b =
      { r with
          input_tokens := r.input_tokens + a,
          output_tokens := r.output_tokens + b,
          total_cost := calculate_cost (r.input_tokens + a) (r.output_tokens + b) } := by
  simp [update_actual_cost, get_cost_record_same_day today r h]

lemma run_updates_props (today : String) :
    ∀ (us : List (ℕ × ℕ)) (r : CostRecord), r.date = today →
      (run_updates today r us).date = today
      ∧ (run_updates today r us).input_tokens
          = r.input_tokens + (us.map Prod.fst).sum
      ∧ (run_updates today r us).output_tokens
          = r.output_tokens + (us.map Prod.snd).sum
      ∧ (us ≠ [] →
          (run_updates today r us).total_cost
            = calculate_cost (run_updates today r us).input_tokens
                (run_updates today r us).output_tokens) := by
  intro us
  induction us with
  | nil => intro r h; simp [run_updates, h]
  | cons u rest ih =>
      intro r h
      obtain ⟨a, b⟩ := u
      have hupd := update_actual_cost_same_day today r a b h
      have hdate1 : (update_actual_cost today (.item r) a b).date = today := by
        rw [hupd]; exact h
      have IH := ih (update_actual_cost today (.item r) a b) hdate1
      have hrun : run_updates today r ((a, b) :: rest)
          = run_updates today (update_actual_cost today (.item r) a b) rest := rfl
      refine ⟨by rw [hrun]; exact IH.1, ?_, ?_, ?_⟩
      · rw [hrun, IH.2.1, hupd]
        simp [Nat.add_assoc]
      · rw [hrun, IH.2.2.1, hupd]
        simp [Nat.add_assoc]
      · intro _
        cases rest with
        | nil =>
            rw [hrun]
            simp only [run_updates]
            rw [hupd]
        | cons v rest2 =>
            rw [hrun]
            exact IH.2.2.2 (by simp)

/-! ## Claim theorems — spend ledger -/

/-- C1: with a same-day stored record, `check_and_update_cost` refuses a
request exactly when `currentTotal + estimatedCost > dailyCap`; a refusal
leaves the stored record untouched, and an accepted request sets the stored
total to `currentTotal + estimatedCost` (so with total `4.50`, a `$0.60`
estimate is refused and the total stays `4.50`, while an estimate of at most
`$0.50` is accepted and the estimate is added to the total). -/
theorem ledger_cap_enforcement (today : String) (ein eout : ℕ)
    (r : CostRecord) (hdate : r.date = today) :
    ((check_and_update_cost today (.item r) ein eout).1 = false ↔
        DAILY_SPENDING_CAP < r.total_cost + calculate_cost ein eout)
    ∧ ((check_and_update_cost today (.item r) ein eout).1 = false →
        (check_and_update_cost today (.item r) ein eout).2 = r)
    ∧ ((check_and_update_cost today (.item r) ein eout).1 = true →
        (check_and_update_cost today (.item r) ein eout).2.total_cost
          = r.total_cost + calculate_cost ein eout) := by
  have hget := get_cost_record_same_day today r hdate
  by_cases h : DAILY_SPENDING_CAP < r.total_cost + calculate_cost ein eout
  · simp [check_and_update_cost, hget, h]
  · simp [check_and_update_cost, hget, h]

/-- C1 witness: at stored total `4.50`, an estimate of `$0.60`
(200000 input tokens) is refused leaving the total `4.50`, and an estimate
of `$0.45` (150000 input tokens) is accepted, making the total `4.95`. -/
theorem ledger_cap_enforcement_witness :
    (check_and_update_cost "2025-06-01"
        (.item ⟨"2025-06-01", 9/2, 9, 0, 0⟩) 200000 0).1 = false
    ∧ (check_and_update_cost "2025-06-01"
        (.item ⟨"2025-06-01", 9/2, 9, 0, 0⟩) 200000 0).2.total_cost = 9/2
    ∧ (check_and_update_cost "2025-06-01"
        (.item ⟨"2025-06-01", 9/2, 9, 0, 0⟩) 150000 0).1 = true
    ∧ (check_and_update_cost "2025-06-01"
        (.item ⟨"2025-06-01", 9/2, 9, 0, 0⟩) 150000 0).2.total_cost = 99/20 := by
  have h1 := ledger_cap_enforcement "2025-06-01" 200000 0
    ⟨"2025-06-01", 9/2, 9, 0, 0⟩ rfl
  have h2 := ledger_cap_enforcement "2025-06-01" 150000 0
    ⟨"2025-06-01", 9/2, 9, 0, 0⟩ rfl
  have hfalse := h1.1.mpr (by with_unfolding_all decide)
  have htrue : (check_and_update_cost "2025-06-01"
      (.item ⟨"2025-06-01", 9/2, 9, 0, 0⟩) 150000 0).1 = true := by
    with_unfolding_all decide
  refine ⟨hfalse, ?_, htrue, ?_⟩
  · rw [h1.2.1 hfalse]
  · rw [h2.2.2 htrue]; with_unfolding_all decide

/-- C4: after any non-empty same-day sequence of `update_actual_cost`
calls, the stored `total_cost` is the from-scratch recomputation
`calculate_cost` of the stored cumulative token counters, and those counters
are the starting counters plus the sums of the per-call deltas — never a
compounded double-charge. -/
theorem reconcile_recomputes_from_counters (today : String) (r0 : CostRecord)
    (us : List (ℕ × ℕ)) (hus : us ≠ []) (hdate : r0.date = today) :
    (run_updates today r0 us).total_cost
      = calculate_cost (run_updates today r0 us).input_tokens
          (run_updates today r0 us).output_tokens
    ∧ (run_updates today r0 us).input_tokens
        = r0.input_tokens + (us.map Prod.fst).sum
    ∧ (run_updates today r0 us).output_tokens
        = r0.output_tokens + (us.map Prod.snd).sum := by
  have h := run_updates_props today us r0 hdate
  exact ⟨h.2.2.2 hus, h.2.1, h.2.2.1⟩

/-- C4 witness: reconciling twice with the same deltas `(1000, 2000)` from a
fresh record yields `calculate_cost 2000 4000` (= `$0.066`), not a
double-charge. -/
theorem reconcile_recomputes_from_counters_witness :
    ([((1000 : ℕ), (2000 : ℕ)), (1000, 2000)] ≠ ([] : List (ℕ × ℕ)))
    ∧ (run_updates "2025-06-01" (_initialize_cost_record "2025-06-01")
          [(1000, 2000), (1000, 2000)]).total_cost = calculate_cost 2000 4000 := by
  have h := reconcile_recomputes_from_counters "2025-06-01"
    (_initialize_cost_record "2025-06-01") [(1000, 2000), (1000, 2000)]
    (by simp) rfl
  refine ⟨by simp, ?_⟩
  rw [h.1, h.2.1, h.2.2]
  norm_num [_initialize_cost_record]

/-- C5: a stored record whose `date` differs from the current UTC date is
replaced on access by a fresh record with zero total and zero counters dated
today; consequently a reservation against the stale record proceeds exactly
as if no record existed — stale totals are never carried forward. -/
theorem stale_day_record_reset (today : String) (r : CostRecord)
    (h : r.date ≠ today) :
    _get_cost_record today (.item r) = _initialize_cost_record today
    ∧ (_initialize_cost_record today).total_cost = 0
    ∧ (_initialize_cost_record today).request_count = 0
    ∧ (_initialize_cost_record today).input_tokens = 0
    ∧ (_initialize_cost_record today).output_tokens = 0
    ∧ (_initialize_cost_record today).date = today
    ∧ ∀ ein eout : ℕ,
        check_and_update_cost today (.item r) ein eout
          = check_and_update_cost today .noItem ein eout := by
  refine ⟨by simp [_get_cost_record, h], rfl, rfl, rfl, rfl, rfl, ?_⟩
  intro ein eout
  simp [check_and_update_cost, _get_cost_record, h]

/-- C5 witness: a record dated `2025-05-31` holding `$4.21`, read on
`2025-06-01`, is reset to the fresh zero record. -/
theorem stale_day_record_reset_witness :
    ((⟨"2025-05-31", 421/100, 7, 900000, 100000⟩ : CostRecord).date ≠ "2025-06-01")
    ∧ _get_cost_record "2025-06-01"
        (.item ⟨"2025-05-31", 421/100, 7, 900000, 100000⟩)
        = _initialize_cost_record "2025-06-01" := by
  have h := stale_day_record_reset "2025-06-01"
    ⟨"2025-05-31", 421/100, 7, 900000, 100000⟩ (by decide)
  exact ⟨by decide, h.1⟩

/-- C6 (amended): when the ledger read fails, `check_and_update_cost` works
on a synthetic record whose total is the full cap, so every request whose
estimated cost is positive (at least one estimated token) is refused. -/
theorem read_error_refuses_positive_spend (today : String) (ein eout : ℕ)
    (h : 0 < ein ∨ 0 < eout) :
    (check_and_update_cost today .clientError ein eout).1 = false := by
  have hpos := calculate_cost_pos ein eout h
  have hlt : DAILY_SPENDING_CAP < DAILY_SPENDING_CAP + calculate_cost ein eout :=
    lt_add_of_pos_right _ hpos
  simp [check_and_update_cost, _get_cost_record, hlt]

/-- C6 witness: with the default estimates (4000 input, 2000 output tokens),
a request under a failed ledger read is refused. -/
theorem read_error_refuses_positive_spend_witness :
    (0 < 4000 ∨ 0 < 2000)
    ∧ (check_and_update_cost "2025-06-01" .clientError 4000 2000).1 = false :=
  ⟨Or.inl (by decide),
    read_error_refuses_positive_spend "2025-06-01" 4000 2000 (Or.inl (by decide))⟩

/-- C6 counterexample: the claim "for every estimated token count" fails at
zero estimated tokens — the projected cost then equals the cap exactly, the
strict comparison does not fire, and the request is allowed. -/
theorem read_error_zero_estimate_allowed :
    (check_and_update_cost "2025-06-01" .clientError 0 0).1 = true := by
  with_unfolding_all decide

/-- C10: an accepted reservation adds the estimated token counts to the
stored cumulative counters, and a later `update_actual_cost` recomputes the
total from those same counters after adding the actual counts — so the
estimated tokens stay in the counters and in every recomputed total (the
estimate is not replaced by the actual usage). -/
theorem estimated_tokens_persist_in_counters (today : String) (r : CostRecord)
    (ein eout ain aout : ℕ) (hdate : r.date = today)
    (hallow : (check_and_update_cost today (.item r) ein eout).1 = true) :
    (check_and_update_cost today (.item r) ein eout).2.input_tokens
        = r.input_tokens + ein
    ∧ (check_and_update_cost today (.item r) ein eout).2.output_tokens
        = r.output_tokens + eout
    ∧ (update_actual_cost today
          (.item (check_and_update_cost today (.item r) ein eout).2) ain aout).total_cost
        = calculate_cost (r.input_tokens + ein + ain) (r.output_tokens + eout + aout) := by
  have hget := get_cost_record_same_day today r hdate
  by_cases h : DAILY_SPENDING_CAP < r.total_cost + calculate_cost ein eout
  · simp [check_and_update_cost, hget, h] at hallow
  · simp [check_and_update_cost, hget, h, update_actual_cost, _get_cost_record, hdate]

/-- C10 witness: from a fresh record, reserving the default estimates
(4000, 2000) and then reconciling actuals (3000, 1000) yields a total
recomputed from counters `7000` and `3000` — the estimates persist. -/
theorem estimated_tokens_persist_in_counters_witness :
    (check_and_update_cost "2025-06-01"
        (.item (_initialize_cost_record "2025-06-01")) 4000 2000).1 = true
    ∧ (update_actual_cost "2025-06-01"
        (.item (check_and_update_cost "2025-06-01"
          (.item (_initialize_cost_record "2025-06-01")) 4000 2000).2)
        3000 1000).total_cost = calculate_cost 7000 3000 := by
  have hallow : (check_and_update_cost "2025-06-01"
      (.item (_initialize_cost_record "2025-06-01")) 4000 2000).1 = true := by
    with_unfolding_all decide
  have h := estimated_tokens_persist_in_counters "2025-06-01"
    (_initialize_cost_record "2025-06-01") 4000 2000 3000 1000 rfl hallow
  exact ⟨hallow, h.2.2⟩

/-! ## Helper lemmas — rate limiter -/

lemma refill_tokens_props (s : RateLimiter) (now : ℚ) (hInv : s.Inv)
    (ht : s.last_update ≤ now) :
    (_refill_tokens s now).Inv
    ∧ s.tokens ≤ (_refill_tokens s now).tokens
    ∧ (_refill_tokens s now).max_tokens = s.max_tokens
    ∧ (_refill_tokens s now).requests_per_minute = s.requests_per_minute
    ∧ (_refill_tokens s now).last_update = now := by
  obtain ⟨h1, h2, h3⟩ := hInv
  have hrate : 0 ≤ s.requests_per_minute / 60 := by positivity
  have hadd : 0 ≤ (now - s.last_update) * (s.requests_per_minute / 60) :=
    mul_nonneg (by linarith) hrate
  have hle : s.tokens ≤ s.tokens + (now - s.last_update) * (s.requests_per_minute / 60) := by
    linarith
  have hmin : s.tokens ≤ min s.max_tokens
      (s.tokens + (now - s.last_update) * (s.requests_per_minute / 60)) :=
    le_min h3 hle
  refine ⟨⟨h1, le_trans h2 hmin, ?_⟩, hmin, rfl, rfl, rfl⟩
  exact min_le_left _ _

lemma acquire_inv : ∀ (sched : List (ℚ × ℚ)) (s : RateLimiter) (req : ℤ)
    (deadline : ℚ), s.Inv → monoSched s.last_update sched = true → 0 ≤ req →
    ((acquire req deadline s sched).2).Inv := by
  intro sched
  induction sched with
  | nil => intro s req deadline hInv _ _; simpa [acquire] using hInv
  | cons tc rest ih =>
      intro s req deadline hInv hm hreq
      obtain ⟨t, c⟩ := tc
      simp only [monoSched, Bool.and_eq_true, decide_eq_true_eq] at hm
      have hr := refill_tokens_props s t hInv hm.1
      have hs1 : (_refill_tokens s t).Inv := hr.1
      obtain ⟨g1, g2, g3⟩ := hs1
      simp only [acquire]
      by_cases hok : (req : ℚ) ≤ (_refill_tokens s t).tokens
      · have hreqq : (0 : ℚ) ≤ (req : ℚ) := by exact_mod_cast hreq
        simp only [hok, if_true]
        exact ⟨g1, by simp; linarith, by simp; linarith⟩
      · simp only [hok, if_false]
        by_cases htimeout : deadline ≤ c
        · simpa [htimeout] using ⟨g1, g2, g3⟩
        · have hm2 : monoSched (_refill_tokens s t).last_update rest = true := by
            rw [hr.2.2.2.2]; exact hm.2
          simpa [htimeout] using ih (_refill_tokens s t) req deadline ⟨g1, g2, g3⟩ hm2 hreq

lemma run_acquires_inv : ∀ (calls : List AcquireCall) (s : RateLimiter),
    s.Inv → validCalls s calls = true → (runAcquires s calls).Inv := by
  intro calls
  induction calls with
  | nil => intro s hInv _; simpa [runAcquires] using hInv
  | cons cl cls ih =>
      intro s hInv hv
      simp only [validCalls, Bool.and_eq_true, decide_eq_true_eq] at hv
      have h1 := acquire_inv cl.sched s cl.req cl.deadline hInv hv.1.2 hv.1.1
      simpa [runAcquires] using ih _ h1 hv.2

/-! ## Claim theorems — rate limiter -/

/-- C2 (amended): over every sequence of `acquire` calls with non-negative
requested token counts and non-decreasing clock samples, the `tokens`
balance of a bucket configured with a non-negative rate never exceeds
`max_tokens` and never becomes negative. -/
theorem rate_limiter_token_conservation (rpm t0 : ℚ)
    (calls : List AcquireCall) (hrpm : 0 ≤ rpm)
    (hvalid : validCalls (RateLimiter.init rpm t0) calls = true) :
    0 ≤ (runAcquires (RateLimiter.init rpm t0) calls).tokens
    ∧ (runAcquires (RateLimiter.init rpm t0) calls).tokens
        ≤ (runAcquires (RateLimiter.init rpm t0) calls).max_tokens := by
  have hinit : (RateLimiter.init rpm t0).Inv := ⟨hrpm, hrpm, le_refl _⟩
  have h := run_acquires_inv calls (RateLimiter.init rpm t0) hinit hvalid
  exact ⟨h.2.1, h.2.2⟩

/-- C2 witness: a bucket at 30 requests/minute, one successful acquire of 1
token at time 0 and one of 2 tokens at time 10, keeps its balance within
`[0, 30]`. -/
theorem rate_limiter_token_conservation_witness :
    0 ≤ (runAcquires (RateLimiter.init 30 0)
        [⟨1, 30, [(0, 0)]⟩, ⟨2, 40, [(10, 10)]⟩]).tokens
    ∧ (runAcquires (RateLimiter.init 30 0)
        [⟨1, 30, [(0, 0)]⟩, ⟨2, 40, [(10, 10)]⟩]).tokens
      ≤ (runAcquires (RateLimiter.init 30 0)
        [⟨1, 30, [(0, 0)]⟩, ⟨2, 40, [(10, 10)]⟩]).max_tokens :=
  rate_limiter_token_conservation 30 0 [⟨1, 30, [(0, 0)]⟩, ⟨2, 40, [(10, 10)]⟩]
    (by norm_num) (by with_unfolding_all decide)

/-- C2 counterexample: the claim quantifies over *any* token counts, but
`acquire` with the type-valid request of `-1` tokens passes the
`tokens >= tokens` check and *adds* a token, pushing the balance to 31 on a
bucket whose capacity is 30. -/
theorem rate_limiter_negative_request_overflow :
    (runAcquires (RateLimiter.init 30 0) [⟨-1, 10, [(0, 0)]⟩]).max_tokens
      < (runAcquires (RateLimiter.init 30 0) [⟨-1, 10, [(0, 0)]⟩]).tokens := by
  with_unfolding_all decide

/-- C9 (amended): when `acquire` times out (returns `False`), the requested
tokens are not deducted — under a monotone clock the balance can only have
grown through the lazy refills of the failed attempts (capped at
`max_tokens`), and the configured rate and capacity are unchanged; the call
does, however, mutate `tokens` and `last_update` through those refills. -/
theorem acquire_timeout_no_deduction : ∀ (sched : List (ℚ × ℚ))
    (s : RateLimiter) (req : ℤ) (deadline : ℚ) (s' : RateLimiter),
    s.Inv → monoSched s.last_update sched = true →
    acquire req deadline s sched = (some false, s') →
    s.tokens ≤ s'.tokens
    ∧ s'.max_tokens = s.max_tokens
    ∧ s'.requests_per_minute = s.requests_per_minute := by
  intro sched
  induction sched with
  | nil => intro s req deadline s' _ _ heq; simp [acquire] at heq
  | cons tc rest ih =>
      intro s req deadline s' hInv hm heq
      obtain ⟨t, c⟩ := tc
      simp only [monoSched, Bool.and_eq_true, decide_eq_true_eq] at hm
      have hr := refill_tokens_props s t hInv hm.1
      simp only [acquire] at heq
      by_cases hok : (req : ℚ) ≤ (_refill_tokens s t).tokens
      · simp [hok] at heq
      · simp only [hok, if_false] at heq
        by_cases htimeout : deadline ≤ c
        · simp only [htimeout, if_true] at heq
          cases heq
          exact ⟨hr.2.1, hr.2.2.1, hr.2.2.2.1⟩
        · simp only [htimeout, if_false] at heq
          have hm2 : monoSched (_refill_tokens s t).last_update rest = true := by
            rw [hr.2.2.2.2]; exact hm.2
          have hrec := ih (_refill_tokens s t) req deadline s' hr.1 hm2 heq
          exact ⟨le_trans hr.2.1 hrec.1,
            hrec.2.1.trans hr.2.2.1, hrec.2.2.trans hr.2.2.2.1⟩

/-- C9 witness: the bucket reached from `init 30 0` by acquiring 20 tokens
holds 10 tokens; an `acquire 25` that times out at its first attempt (clock
sample 1, deadline 1) leaves the balance undeducted (it refills to 10.5). -/
theorem acquire_timeout_no_deduction_witness :
    (⟨30, 10, 30, 0⟩ : RateLimiter).tokens
        ≤ (⟨30, 21/2, 30, 1⟩ : RateLimiter).tokens
    ∧ (⟨30, 21/2, 30, 1⟩ : RateLimiter).max_tokens
        = (⟨30, 10, 30, 0⟩ : RateLimiter).max_tokens
    ∧ (⟨30, 21/2, 30, 1⟩ : RateLimiter).requests_per_minute
        = (⟨30, 10, 30, 0⟩ : RateLimiter).requests_per_minute :=
  acquire_timeout_no_deduction [(1, 1)] ⟨30, 10, 30, 0⟩ 25 1 ⟨30, 21/2, 30, 1⟩
    ⟨by norm_num, by norm_num, by norm_num⟩
    (by with_unfolding_all decide) (by with_unfolding_all decide)

/-- C9 counterexample: the claim says a timed-out `acquire` mutates no field
of the bucket, but the state reached from `init 30 0` by a successful
`acquire 20` (balance 10, `last_update` 0), after a timed-out `acquire 25`
at clock instant 1, has been mutated: the failed attempt's lazy refill set
the balance to 10.5 and `last_update` to 1. -/
theorem acquire_timeout_mutates_state :
    (acquire 25 1 (runAcquires (RateLimiter.init 30 0) [⟨20, 5, [(0, 0)]⟩])
        [(1, 1)]).1 = some false
    ∧ (acquire 25 1 (runAcquires (RateLimiter.init 30 0) [⟨20, 5, [(0, 0)]⟩])
        [(1, 1)]).2
      ≠ runAcquires (RateLimiter.init 30 0) [⟨20, 5, [(0, 0)]⟩] := by
  with_unfolding_all decide

/-! ## Claim theorems — exponential backoff -/

/-- C3: a callable that raises a classified throttling error on every
invocation, wrapped with `max_retries = 2`, is invoked exactly 3 times in
total and the wrapper re-raises the last throttling error. -/
theorem backoff_exhaustion_three_calls (A : Type) (es : ℕ → String)
    (h : ∀ i, is_throttling (es i) = true) :
    with_exponential_backoff 2 (fun i => (Except.error (es i) : Except String A))
      = (Except.error (es 2), 3) := by
  unfold with_exponential_backoff
  rw [backoffFrom]
  simp only [h 0, Bool.true_eq_false, if_false, Nat.reduceLeDiff, if_false]
  rw [backoffFrom]
  simp only [h 1, Bool.true_eq_false, if_false, Nat.reduceLeDiff, if_false]
  rw [backoffFrom]
  simp [h 2]

/-- C3 witness: a callable always raising `ThrottlingException` under
`max_retries = 2` runs 3 times and the error is re-raised. -/
theorem backoff_exhaustion_three_calls_witness :
    with_exponential_backoff 2
        (fun _ => (Except.error "ThrottlingException" : Except String ℕ))
      = (Except.error "ThrottlingException", 3) :=
  backoff_exhaustion_three_calls ℕ (fun _ => "ThrottlingException")
    (fun _ => rfl)

/-! ## Helper lemmas — response poller -/

lemma processMessages_spec {P : Type} (parse : String → Option P) :
    ∀ ms : List SqsMessage,
      processMessages parse ms
        = (ms.filterMap (fun m => (parse m.body).map (fun p => (p, m.receiptHandle))),
           (ms.filter (fun m => (parse m.body).isSome)).map (fun m => m.receiptHandle)) := by
  intro ms
  induction ms with
  | nil => simp [processMessages]
  | cons m rest ih =>
      cases hp : parse m.body with
      | none => simp [processMessages, hp, ih]
      | some p => simp [processMessages, hp, ih]

lemma pollGo_unfold_msgs {P : Type} (parse : String → Option P)
    (resp : List (P × ℕ)) (del : List ℕ) (recv : List (List SqsMessage))
    (ms : List SqsMessage) (rest : List (Bool × RecvResult)) :
    pollGo parse resp del recv ((true, RecvResult.msgs ms) :: rest)
      = if ms.isEmpty then ⟨resp, del, recv ++ [ms]⟩
        else if (resp ++ (processMessages parse ms).1).isEmpty then
          pollGo parse (resp ++ (processMessages parse ms).1)
            (del ++ (processMessages parse ms).2) (recv ++ [ms]) rest
        else ⟨resp ++ (processMessages parse ms).1,
              del ++ (processMessages parse ms).2, recv ++ [ms]⟩ := by
  simp [pollGo]

lemma pollGo_discipline {P : Type} (parse : String → Option P) :
    ∀ (rounds : List (Bool × RecvResult)) (resp : List (P × ℕ)) (del : List ℕ)
      (recv : List (List SqsMessage)),
      ∃ new : List (List SqsMessage),
        (pollGo parse resp del recv rounds).received = recv ++ new
        ∧ (pollGo parse resp del recv rounds).responses
            = resp ++ new.flatten.filterMap
                (fun m => (parse m.body).map (fun p => (p, m.receiptHandle)))
        ∧ (pollGo parse resp del recv rounds).deleted
            = del ++ (new.flatten.filter
                (fun m => (parse m.body).isSome)).map (fun m => m.receiptHandle) := by
  intro rounds
  induction rounds with
  | nil =>
      intro resp del recv
      exact ⟨[], by simp [pollGo], by simp [pollGo], by simp [pollGo]⟩
  | cons round rest ih =>
      intro resp del recv
      obtain ⟨timeOk, rr⟩ := round
      cases timeOk with
      | false => exact ⟨[], by simp [pollGo], by simp [pollGo], by simp [pollGo]⟩
      | true =>
          cases rr with
          | recvError =>
              exact ⟨[], by simp [pollGo], by simp [pollGo], by simp [pollGo]⟩
          | msgs ms =>
              have hA : (processMessages parse ms).1
                  = ms.filterMap (fun m => (parse m.body).map (fun p => (p, m.receiptHandle))) := by
                rw [processMessages_spec]
              have hB : (processMessages parse ms).2
                  = (ms.filter (fun m => (parse m.body).isSome)).map (fun m => m.receiptHandle) := by
                rw [processMessages_spec]
              by_cases hempty : ms.isEmpty
              · have hms : ms = [] := List.isEmpty_iff.mp hempty
                subst hms
                exact ⟨[[]], by simp [pollGo_unfold_msgs],
                  by simp [pollGo_unfold_msgs], by simp [pollGo_unfold_msgs]⟩
              · by_cases h2 : (resp ++ (processMessages parse ms).1).isEmpty
                · obtain ⟨new', g1, g2, g3⟩ := ih (resp ++ (processMessages parse ms).1)
                    (del ++ (processMessages parse ms).2) (recv ++ [ms])
                  refine ⟨ms :: new', ?_, ?_, ?_⟩
                  · rw [pollGo_unfold_msgs, if_neg hempty, if_pos h2, g1]
                    simp
                  · rw [pollGo_unfold_msgs, if_neg hempty, if_pos h2, g2, hA]
                    simp [List.filterMap_append]
                  · rw [pollGo_unfold_msgs, if_neg hempty, if_pos h2, g3, hB]
                    simp [List.filter_append]
                · refine ⟨[ms], ?_, ?_, ?_⟩
                  · rw [pollGo_unfold_msgs, if_neg hempty, if_neg h2]
                  · rw [pollGo_unfold_msgs, if_neg hempty, if_neg h2, hA]
                    simp
                  · rw [pollGo_unfold_msgs, if_neg hempty, if_neg h2, hB]
                    simp

lemma pollGo_received_spec {P : Type} (parse : String → Option P) :
    ∀ (rounds : List (Bool × RecvResult)) (del : List ℕ)
      (recv : List (List SqsMessage)),
      (pollGo parse [] del recv rounds).received
        = recv ++ drainReceivedSpec parse rounds := by
  intro rounds
  induction rounds with
  | nil => intro del recv; simp [pollGo, drainReceivedSpec]
  | cons round rest ih =>
      intro del recv
      obtain ⟨timeOk, rr⟩ := round
      cases timeOk with
      | false => simp [pollGo, drainReceivedSpec]
      | true =>
          cases rr with
          | recvError => simp [pollGo, drainReceivedSpec]
          | msgs ms =>
              by_cases hempty : ms.isEmpty
              · have hms : ms = [] := List.isEmpty_iff.mp hempty
                subst hms
                simp [pollGo_unfold_msgs, drainReceivedSpec]
              · by_cases h2 : (processMessages parse ms).1.isEmpty
                · have h2' : (([] : List (P × ℕ)) ++ (processMessages parse ms).1).isEmpty := by
                    simpa using h2
                  have hnil : ([] : List (P × ℕ)) ++ (processMessages parse ms).1 = [] := by
                    simpa using List.isEmpty_iff.mp h2
                  rw [pollGo_unfold_msgs, if_neg hempty, if_pos h2', hnil, ih]
                  simp [drainReceivedSpec, hempty, h2]
                · have h2' : ¬ (([] : List (P × ℕ)) ++ (processMessages parse ms).1).isEmpty := by
                    simpa using h2
                  rw [pollGo_unfold_msgs, if_neg hempty, if_neg h2']
                  simp [drainReceivedSpec, hempty, h2]

/-! ## Claim theorems — response poller -/

/-- C7: over every run of `poll_responses`, the returned result set is
exactly the successfully parsed messages among those received (paired with
their receipt handles, in arrival order), and the deleted receipt handles
are exactly those of the successfully parsed messages — so a message that
parses is deleted and returned, and a message that fails to parse is never
deleted and never returned. -/
theorem poller_deletion_discipline (P : Type) (parse : String → Option P)
    (rounds : List (Bool × RecvResult)) :
    (poll_responses parse rounds).responses
      = (poll_responses parse rounds).received.flatten.filterMap
          (fun m => (parse m.body).map (fun p => (p, m.receiptHandle)))
    ∧ (poll_responses parse rounds).deleted
      = ((poll_responses parse rounds).received.flatten.filter
          (fun m => (parse m.body).isSome)).map (fun m => m.receiptHandle) := by
  obtain ⟨new, h1, h2, h3⟩ := pollGo_discipline parse rounds [] [] []
  unfold poll_responses
  rw [h2, h3, h1]
  simp

/-- C8 (amended): `poll_responses` receives exactly the batches described by
the amended drain contract — it keeps polling while the time check passes,
the receive succeeds, the batch is non-empty, and the batch contributed no
parsed response, and it stops right after the first round that violates one
of these (in particular after the first round that yields a response,
without a subsequent empty poll, and on an empty round even when nothing has
been collected). -/
theorem poller_stop_characterization (P : Type) (parse : String → Option P)
    (rounds : List (Bool × RecvResult)) :
    (poll_responses parse rounds).received = drainReceivedSpec parse rounds := by
  have h := pollGo_received_spec parse rounds [] []
  simpa [poll_responses] using h

/-- C8 counterexample: with time remaining and a second non-empty batch
waiting, `poll_responses` still returns after the first batch that yields a
response: the second round is never received, no received round was empty,
and no time check failed — contradicting "it does not stop under any other
condition". -/
theorem poller_stops_after_first_productive_round :
    (poll_responses parseDemo
        [(true, .msgs [⟨"ok", 101⟩]), (true, .msgs [⟨"ok", 102⟩])]).responses
      = [(1, 101)]
    ∧ (poll_responses parseDemo
        [(true, .msgs [⟨"ok", 101⟩]), (true, .msgs [⟨"ok", 102⟩])]).received
      = [[⟨"ok", 101⟩]]
    ∧ ¬ ([] ∈ (poll_responses parseDemo
        [(true, .msgs [⟨"ok", 101⟩]), (true, .msgs [⟨"ok", 102⟩])]).received) := by
  decide
